import Mathlib

/-!
Shallow embedding of `assemblyline_v4_service/dev/run_service_once.py`
(class `RunService`), the single-run execution harness: file
identification, CaRT unwrapping, task construction, service execution,
result normalization and scoring, and workspace finalization.

File contents are modelled as an inductive `Content` (raw bytes or a
parsed result document), the filesystem as an association list from
paths to contents.  External collaborators that live outside this
repository (the `identify` module, the `cart` codec, the heuristic
resolution helper, the ISO clock) are modelled from the spec, as noted
on each definition.
-/

namespace RunServiceOnce

/-- Raw file bytes. -/
abbrev Bytes := List Nat

/-- A heuristic as referenced by a raw result section: the section's
`heuristic` dict, of which only `heur_id` is read by the harness
(line 135 of run_service_once.py). -/
structure ServiceHeuristic where
  heur_id : Nat
deriving DecidableEq, Repr

/-- A catalog entry of the service manifest: name and score of one
declared heuristic. -/
structure CatalogHeuristic where
  name : String
  score : Int
deriving DecidableEq, Repr

/-- The heuristic catalog: mapping from heuristic id to its declared
name and score.  Modelled from the spec: `get_heuristics` (from
`assemblyline_v4_service.common.helper`, not under src/) returns the
manifest-declared heuristics keyed by id. -/
abbrev HeuristicCatalog := List (Nat × CatalogHeuristic)

/-- Catalog lookup by heuristic id. -/
def catLookup (cat : HeuristicCatalog) (i : Nat) : Option CatalogHeuristic :=
  (cat.find? (fun p => p.1 = i)).map Prod.snd

/-- A resolved heuristic record {id, name, score} as placed into a
scored section. -/
structure ResultHeuristic where
  heur_id : Nat
  name : String
  score : Int
deriving DecidableEq, Repr

/-- An entry of `response.extracted` / `response.supplementary`:
metadata plus an optional local filesystem `path` field. -/
structure FileEntry where
  name : String
  sha256 : String
  path : Option String
deriving DecidableEq, Repr

/-- A raw result section; the harness only inspects its optional
heuristic reference (`section['heuristic']`). -/
structure RawSection where
  heuristic : Option ServiceHeuristic
deriving DecidableEq, Repr

/-- A section after normalization: the heuristic reference replaced by
a resolved record, or null. -/
structure ScoredSection where
  heuristic : Option ResultHeuristic
deriving DecidableEq, Repr

/-- The parsed raw result artifact deposited by the service:
`temp_submission_data` is the internal scratch field, `extracted` and
`supplementary` sit under `response`, `sections` under `result`. -/
structure RawResult where
  temp_submission_data : Option String
  extracted : List FileEntry
  supplementary : List FileEntry
  sections : List RawSection
deriving DecidableEq, Repr

/-- The in-memory normalized and scored result (lines 122-151):
scratch field gone, paths stripped, heuristics resolved, total score
and lifecycle timestamps set.  Timestamps are seconds since the
epoch. -/
structure ScoredResult where
  extracted : List FileEntry
  supplementary : List FileEntry
  sections : List ScoredSection
  score : Int
  created : Nat
  archive_ts : Nat
  expiry_ts : Nat
deriving DecidableEq, Repr

/-- Content of a file: opaque bytes, or a JSON document parsing to a
raw result artifact. -/
inductive Content where
  | raw (b : Bytes)
  | json (r : RawResult)
deriving DecidableEq, Repr

/-- The filesystem: a finite association from absolute paths to file
contents. -/
abbrev FS := List (String × Content)

/-- Read the content at a path. -/
def FS.read (fs : FS) (p : String) : Option Content :=
  (fs.find? (fun e => e.1 = p)).map Prod.snd

/-- Delete the file at a path (`os.unlink` / overwrite prologue). -/
def FS.remove (fs : FS) (p : String) : FS :=
  fs.filter (fun e => e.1 ≠ p)

/-- Write content at a path, replacing any previous file. -/
def FS.write (fs : FS) (p : String) (c : Content) : FS :=
  (p, c) :: FS.remove fs p

/-- Whether path `p` lies under directory `dir` (string prefix test on
`dir ++ "/"`, computed structurally on the character lists). -/
def underDir (dir p : String) : Bool :=
  (dir ++ "/").data.isPrefixOf p.data

/-- Recursively delete a directory (`shutil.rmtree`): drop every file
whose path lies under it. -/
def FS.removeUnder (fs : FS) (dir : String) : FS :=
  fs.filter (fun e => ¬ underDir dir e.1)

/-- Move every file under directory `src` into directory `dst`,
keeping its name (lines 107-109: each listing entry of the staging
directory is moved into the workspace artifact subdirectory). -/
def FS.relocateUnder (fs : FS) (src dst : String) : FS :=
  fs.map (fun e =>
    if underDir src e.1 then
      (dst ++ "/" ++ String.mk (e.1.data.drop (src.data.length + 1)), e.2)
    else e)

/-- The process temp directory (`tempfile.gettempdir()`). -/
def gettempdir : String := "/tmp"

/-- The canonical content-addressed path of a payload named by a
hash. -/
def tempPath (name : String) : String := gettempdir ++ "/" ++ name

/-- FileInfo: hashes, magic, mime, size and type of a file
(`identify.fileinfo` output, the fields read at lines 78-86). -/
structure FileInfo where
  md5 : String
  sha1 : String
  sha256 : String
  magic : String
  mime : String
  size : Nat
  ftype : String
deriving DecidableEq, Repr

/-- An identification oracle: the hash and classification functions of
the external `identify` module, as functions of the file's content. -/
structure Identify where
  md5 : Content → String
  sha1 : Content → String
  sha256 : Content → String
  magic : Content → String
  mime : Content → String
  size : Content → Nat
  ftype : Content → String

/-- Modelled from the spec: `identify.fileinfo` (external `assemblyline`
package) computes cryptographic hashes and a magic-based type
classification of the file's own bytes. -/
def fileinfo (idf : Identify) (c : Content) : FileInfo :=
  { md5 := idf.md5 c, sha1 := idf.sha1 c, sha256 := idf.sha256 c,
    magic := idf.magic c, mime := idf.mime c, size := idf.size c,
    ftype := idf.ftype c }

/-- Output of the identification / unwrapping stage: the updated temp
filesystem, the final FileInfo, and the canonical target path. -/
structure UnwrapOut where
  fs : FS
  fi : FileInfo
  target : String
deriving Repr

/-- Lines 56-71: identify the input; if it is a CaRT archive, decode it
(`unpack_stream`, modelled from the spec as a pure decoding function) to
`<temp>/<wrapper sha256>`, re-identify the decoded bytes and move the
file to `<temp>/<decoded sha256>`; otherwise copy the input verbatim to
`<temp>/<sha256>`. -/
def unwrapStage (idf : Identify) (unpack_stream : Content → Content)
    (fs : FS) (input : Content) : UnwrapOut :=
  let fi0 := fileinfo idf input
  if fi0.ftype = "archive/cart" then
    let originalTemp := tempPath fi0.sha256
    let decoded := unpack_stream input
    let fs1 := fs.write originalTemp decoded
    let fi1 := fileinfo idf decoded
    let target := tempPath fi1.sha256
    let fs2 := (fs1.remove originalTemp).write target decoded
    { fs := fs2, fi := fi1, target := target }
  else
    let target := tempPath fi0.sha256
    { fs := fs.write target input, fi := fi0, target := target }

/-- Modelled from the spec: `now_as_iso` (external `assemblyline`
package) returns the current time advanced by `offset` seconds, as a
timestamp.  `now` is the clock value at the stamping instant. -/
def now_as_iso (now : Nat) (offset : Nat) : Nat := now + offset

/-- Failure of the in-memory normalization loop, caught by the outer
handler at line 158. -/
inductive NormError where
  | typeError
deriving DecidableEq, Repr

/-- Modelled from the spec: `service_heuristic_to_result_heuristic`
(external `assemblyline` package) looks the section's heuristic id up
in the catalog; if found it returns the resolved {id, name, score}
record, otherwise it raises `InvalidHeuristicException` (here:
`none`). -/
def service_heuristic_to_result_heuristic (heuristics : HeuristicCatalog)
    (sh : ServiceHeuristic) : Option ResultHeuristic :=
  (catLookup heuristics sh.heur_id).map
    (fun h => { heur_id := sh.heur_id, name := h.name, score := h.score })

/-- Lines 134-143, one section.  A section without a heuristic is
skipped.  On successful resolution the score is added and line 143
rewrites the name from the catalog (a no-op, the resolved name already
is the catalog name).  On `InvalidHeuristicException` the heuristic is
set to None and line 143 then subscripts None, a TypeError. -/
def processSection (heuristics : HeuristicCatalog) (sec : RawSection) :
    Except NormError (ScoredSection × Int) :=
  match sec.heuristic with
  | none => .ok ({ heuristic := none }, 0)
  | some sh =>
    match service_heuristic_to_result_heuristic heuristics sh with
    | some rh => .ok ({ heuristic := some rh }, rh.score)
    | none => .error .typeError

/-- Lines 132-143: the scoring loop over all sections, accumulating
the total; the first per-section TypeError propagates and aborts the
whole normalization. -/
def scoreSections (heuristics : HeuristicCatalog) :
    List RawSection → Except NormError (List ScoredSection × Int)
  | [] => .ok ([], 0)
  | sec :: rest =>
    match processSection heuristics sec with
    | .error e => .error e
    | .ok (s, sc) =>
      match scoreSections heuristics rest with
      | .error e => .error e
      | .ok (ss, total) => .ok (s :: ss, sc + total)

/-- Lines 122-151: the in-memory normalization of the parsed result:
pop the scratch field, strip `path` from extracted and supplementary
entries, resolve heuristics and accumulate the total score, then stamp
`created`, `archive_ts` (+1 day) and `expiry_ts`
(+ ttl * 24 * 60 * 60 seconds, line 149). -/
def normalizeResult (heuristics : HeuristicCatalog) (now : Nat)
    (ttl : Nat) (raw : RawResult) : Except NormError ScoredResult :=
  match scoreSections heuristics raw.sections with
  | .error e => .error e
  | .ok (secs, total) =>
    .ok { extracted := raw.extracted.map (fun e => { e with path := none }),
          supplementary := raw.supplementary.map (fun e => { e with path := none }),
          sections := secs,
          score := total,
          created := now_as_iso now 0,
          archive_ts := now_as_iso now (1 * 24 * 60 * 60),
          expiry_ts := now_as_iso now (ttl * 24 * 60 * 60) }

/-- The synthetic service task (lines 74-90). -/
structure ServiceTask where
  sid : String
  service_name : String
  service_config : List (String × String)
  fileinfo : FileInfo
  filename : String
  max_files : Nat
  ttl : Nat
deriving DecidableEq, Repr

/-- A submission parameter declared by the manifest: name and
default. -/
structure SubmissionParam where
  name : String
  default : String
deriving DecidableEq, Repr

/-- The parsed service manifest data the harness consumes.
`serviceModelValid` records whether validating the data against the
`Service` model (external `assemblyline` package, modelled from the
spec) succeeds; at lines 186-189 a validation failure is caught and
only logged, and the constructed `Service` object is overwritten at
line 197, so the flag never gates execution. -/
structure ManifestData where
  heuristics : HeuristicCatalog
  config : List (String × String)
  submission_params : List SubmissionParam
  serviceModelValid : Bool
deriving DecidableEq, Repr

/-- The state of the manifest file `service_manifest.yml`: missing,
present but not parseable as YAML, or parsed. -/
inductive ManifestSrc where
  | missing
  | unparsable
  | parsed (d : ManifestData)
deriving DecidableEq, Repr

/-- A fatal harness error. -/
inductive RunError where
  | configurationError (msg : String)
  | executionFailure (msg : String)
deriving DecidableEq, Repr

/-- Lines 172-201: read the manifest.  Missing file: raise (line 201).
Unparseable YAML: `yaml.safe_load` raises and nothing catches it.  A
manifest that parses but fails `Service` model validation is caught at
lines 188-189 and only logged; the data is used regardless. -/
def load_service_manifest : ManifestSrc → Except RunError ManifestData
  | .missing => .error (.configurationError
      "Service manifest YAML file not found in root folder of service.")
  | .unparsable => .error (.configurationError "invalid YAML in service manifest")
  | .parsed d => .ok d

/-- Split a character list on the path separator. -/
def splitSlash (acc : List Char) : List Char → List (List Char)
  | [] => [acc.reverse]
  | c :: rest =>
    if c = '/' then acc.reverse :: splitSlash [] rest
    else splitSlash (c :: acc) rest

/-- Join path components with the path separator. -/
def joinSlash : List (List Char) → List Char
  | [] => []
  | [x] => x
  | x :: rest => x ++ '/' :: joinSlash rest

/-- `os.path.basename`: the last component of a path. -/
def basename (p : String) : String :=
  String.mk ((splitSlash [] p.data).getLastD [])

/-- `os.path.dirname`: the path without its last component. -/
def dirname (p : String) : String :=
  String.mk (joinSlash (splitSlash [] p.data).dropLast)

/-- `str.lower()` on ASCII letters. -/
def lowerChar (c : Char) : Char :=
  if 65 ≤ c.toNat ∧ c.toNat ≤ 90 then Char.ofNat (c.toNat + 32) else c

/-- `str.lower()` applied to a whole string. -/
def lowerStr (s : String) : String := String.mk (s.data.map lowerChar)

/-- The shared staging directory used as a mailbox by the service base
(line 103: `<temp>/working_directory`). -/
def stagingDir : String := gettempdir ++ "/working_directory"

/-- The well-known location of the raw result artifact, keyed by
(session id, sha256) (lines 114-115). -/
def resultJsonPath (sid sha256 : String) : String :=
  gettempdir ++ "/" ++ sid ++ "_" ++ sha256 ++ "_result.json"

/-- The per-run workspace directory (line 50): sibling of the input
file, named `<input basename>_<service name lowercased>`. -/
def workingDirOf (filePath serviceName : String) : String :=
  dirname filePath ++ "/" ++ basename filePath ++ "_" ++ lowerStr serviceName

/-- Parse a file's content as the result document (`json.load`);
non-JSON content fails to parse. -/
def parseResult : Content → Option RawResult
  | .raw _ => none
  | .json r => some r

/-- Lines 103-165, the phase after `handle_task` returns: move every
staged file into the workspace artifact subdirectory and remove the
staging directory; abort with the line-118 exception if no result
artifact exists at the expected location (the error carries the
filesystem at that point); otherwise normalize the parsed result
purely in memory (failures are caught at line 158 and only logged),
delete the canonical temp input, and move the raw result artifact to
`<workspace>/result.json`. -/
def postHandle (heuristics : HeuristicCatalog) (now : Nat)
    (workingDir sid sha256 targetFile : String) (ttl : Nat) (fs : FS) :
    Except (RunError × FS) (FS × Option ScoredResult) :=
  let fs1 := (fs.relocateUnder stagingDir
      (workingDir ++ "/working_directory")).removeUnder stagingDir
  let rj := resultJsonPath sid sha256
  match fs1.read rj with
  | none => .error (.executionFailure
      "A service error occured and no result json was found.", fs1)
  | some c =>
    let scored := (parseResult c).bind
      (fun raw => (normalizeResult heuristics now ttl raw).toOption)
    let fs2 := fs1.remove targetFile
    let fs3 := (fs2.remove rj).write (workingDir ++ "/result.json") c
    .ok (fs3, scored)

/-- `RunService.try_run` (lines 31-167) end to end.  Parameters model
the externals: `idf` the identification oracle, `unpack_stream` the
CaRT decoder, `handle_task` the service-under-test's side effect on
the filesystem, `sid` the random session id (`get_random_id`), `now`
the clock.  Returns the final filesystem and the in-memory scored
result (if normalization succeeded), or the fatal error together with
the filesystem at the abort point. -/
def try_run (idf : Identify) (unpack_stream : Content → Content)
    (handle_task : ServiceTask → FS → FS) (sid : String) (now : Nat)
    (manifest : ManifestSrc) (filePath serviceName : String) (fs : FS) :
    Except (RunError × FS) (FS × Option ScoredResult) :=
  match load_service_manifest manifest with
  | .error e => .error (e, fs)
  | .ok md =>
    -- line 42: missing input is a logged clean no-op return
    match fs.read filePath with
    | none => .ok (fs, none)
    | some input =>
      let fileName := basename filePath
      let workingDir := workingDirOf filePath serviceName
      -- lines 56-71: identify and unwrap
      let u := unwrapStage idf unpack_stream fs input
      -- lines 74-90: the synthetic task
      let task : ServiceTask :=
        { sid := sid, service_name := serviceName,
          service_config := (md.submission_params.map
            (fun x => (x.name, x.default))),
          fileinfo := u.fi, filename := fileName,
          max_files := 501, ttl := 3600 }
      -- lines 95-98: wipe any stale workspace and recreate it
      let fs2 := u.fs.removeUnder workingDir
      -- line 100: the service runs
      let fs3 := handle_task task fs2
      -- lines 103-165
      postHandle md.heuristics now workingDir task.sid task.fileinfo.sha256
        u.target task.ttl fs3

/-!
Concrete fixtures used to evaluate the embedding at specific inputs
(witnesses and counterexamples).
-/

/-- A concrete identification oracle: a content beginning with byte 77
is classified as a CaRT archive; hashes are derived from the content. -/
def idf0 : Identify :=
  { md5 := fun _ => "md5", sha1 := fun _ => "sha1",
    sha256 := fun c => match c with
      | .raw b => "sha" ++ toString b.length ++ "n" ++ toString b.sum
      | .json _ => "shajson",
    magic := fun _ => "magic", mime := fun _ => "mime",
    size := fun c => match c with
      | .raw b => b.length
      | .json _ => 1,
    ftype := fun c => match c with
      | .raw (77 :: _) => "archive/cart"
      | _ => "text/plain" }

/-- A concrete CaRT decoder: strip the leading marker byte 77. -/
def unpack0 : Content → Content
  | .raw (77 :: rest) => .raw rest
  | c => c

/-- A catalog declaring heuristic 42 with score 500 (the worked
example of the spec). -/
def cat42 : HeuristicCatalog := [(42, { name := "SUSPICIOUS_API", score := 500 })]

/-- A valid parsed manifest carrying the 42-catalog. -/
def manifest0 : ManifestData :=
  { heuristics := cat42, config := [], submission_params := [],
    serviceModelValid := true }

/-- The same manifest data failing the `Service` model validation. -/
def manifestInvalid : ManifestData :=
  { heuristics := cat42, config := [], submission_params := [],
    serviceModelValid := false }

/-- A raw result whose extracted entry still carries a local
filesystem path and whose single section references heuristic 42. -/
def rawLeaky : RawResult :=
  { temp_submission_data := some "scratch",
    extracted := [{ name := "dropped.bin", sha256 := "shaE",
                    path := some "/tmp/leak/dropped.bin" }],
    supplementary := [],
    sections := [{ heuristic := some { heur_id := 42 } }] }

/-- A service-under-test that deposits `rawLeaky` at the expected
result location and one extracted file in the staging directory. -/
def handleLeaky : ServiceTask → FS → FS :=
  fun t fs =>
    (fs.write (resultJsonPath t.sid t.fileinfo.sha256) (.json rawLeaky)).write
      (stagingDir ++ "/dropped.bin") (.raw [9])

/-- A service-under-test that deposits nothing at all. -/
def handleSilent : ServiceTask → FS → FS := fun _ fs => fs

/-- The input filesystem of the concrete runs: one plain input file. -/
def fs0 : FS := [("/in/sample", .raw [1, 2, 3])]

/-- A section referencing the declared heuristic 42. -/
def secResolved : RawSection := { heuristic := some { heur_id := 42 } }

/-- A section referencing heuristic 99, absent from `cat42`. -/
def secUnknown : RawSection := { heuristic := some { heur_id := 99 } }

/-- A raw result with one resolvable and one unresolvable section. -/
def rawMixed : RawResult :=
  { temp_submission_data := none, extracted := [], supplementary := [],
    sections := [secResolved, secUnknown] }

/-- The final filesystem of a successfully completed run. -/
def okFS : Except (RunError × FS) (FS × Option ScoredResult) → Option FS
  | .ok (fs, _) => some fs
  | .error _ => none

/-- The in-memory score of a successfully completed and normalized
run. -/
def okScore : Except (RunError × FS) (FS × Option ScoredResult) → Option Int
  | .ok (_, some r) => some r.score
  | _ => none

/-- The filesystem at the abort point of a run that failed with an
ExecutionFailure. -/
def execFailFS : Except (RunError × FS) (FS × Option ScoredResult) → Option FS
  | .error (.executionFailure _, fsE) => some fsE
  | _ => none

/-- The normalized form of `rawLeaky` under `cat42` at clock 1000 with
ttl 3600. -/
def scored0 : ScoredResult :=
  { extracted := [{ name := "dropped.bin", sha256 := "shaE", path := none }],
    supplementary := [],
    sections := [{ heuristic := some { heur_id := 42, name := "SUSPICIOUS_API", score := 500 } }],
    score := 500, created := 1000, archive_ts := 87400,
    expiry_ts := 311041000 }

/-- The final payload of the identification/unwrapping stage: the
decoded bytes when the input is identified as a CaRT wrapper, the
input itself otherwise. -/
def finalPayload (idf : Identify) (unpack_stream : Content → Content)
    (input : Content) : Content :=
  if (fileinfo idf input).ftype = "archive/cart" then unpack_stream input
  else input

/-!
Basic facts about the filesystem model.
-/

theorem FS.read_write_self (fs : FS) (p : String) (c : Content) :
    (fs.write p c).read p = some c := by
  simp [FS.read, FS.write, List.find?]

theorem FS.read_remove_self (fs : FS) (p : String) :
    (fs.remove p).read p = none := by
  induction fs with
  | nil => rfl
  | cons e fs ih =>
    by_cases he : e.1 = p
    · rw [show FS.remove (e :: fs) p = FS.remove fs p by
            simp [FS.remove, List.filter, he]]
      exact ih
    · rw [show FS.remove (e :: fs) p = e :: FS.remove fs p by
            simp [FS.remove, List.filter, he]]
      rw [show FS.read (e :: FS.remove fs p) p = FS.read (FS.remove fs p) p by
            simp [FS.read, List.find?, he]]
      exact ih

theorem FS.read_remove_ne (fs : FS) (p q : String) (h : q ≠ p) :
    (fs.remove p).read q = fs.read q := by
  induction fs with
  | nil => rfl
  | cons e fs ih =>
    by_cases he : e.1 = p
    · have hq : e.1 ≠ q := by rw [he]; exact fun hpq => h hpq.symm
      rw [show FS.remove (e :: fs) p = FS.remove fs p by
            simp [FS.remove, List.filter, he]]
      rw [show FS.read (e :: fs) q = FS.read fs q by
            simp [FS.read, List.find?, hq]]
      exact ih
    · by_cases heq : e.1 = q
      · rw [show FS.remove (e :: fs) p = e :: FS.remove fs p by
              simp [FS.remove, List.filter, he]]
        rw [show FS.read (e :: FS.remove fs p) q = some e.2 by
              simp [FS.read, List.find?, heq]]
        rw [show FS.read (e :: fs) q = some e.2 by
              simp [FS.read, List.find?, heq]]
      · rw [show FS.remove (e :: fs) p = e :: FS.remove fs p by
              simp [FS.remove, List.filter, he]]
        rw [show FS.read (e :: FS.remove fs p) q = FS.read (FS.remove fs p) q by
              simp [FS.read, List.find?, heq]]
        rw [show FS.read (e :: fs) q = FS.read fs q by
              simp [FS.read, List.find?, heq]]
        exact ih

theorem FS.read_write_ne (fs : FS) (p q : String) (c : Content) (h : q ≠ p) :
    (fs.write p c).read q = fs.read q := by
  have h1 : FS.read (FS.write fs p c) q = FS.read (FS.remove fs p) q := by
    simp [FS.write, FS.read, List.find?,
      show ¬ (p = q) from fun hpq => h hpq.symm]
  rw [h1, FS.read_remove_ne fs p q h]

theorem tempPath_inj (a b : String) (h : tempPath a = tempPath b) : a = b := by
  have hd : (tempPath a).data = (tempPath b).data := by rw [h]
  simp only [tempPath, gettempdir, String.data_append] at hd
  exact String.ext (List.append_cancel_left hd)

/-!
Claim theorems.
-/

/-- C1: refuted as stated (defect acknowledged by the spec, §9).  On a
raw result with one section resolving in the catalog (id 42, score
500) and one section whose id (99) is not in the catalog, the claim
demands a total score of 500 with the unknown section contributing 0;
instead line 143 subscripts the just-nulled heuristic, the TypeError
escapes the scoring loop to the handler at line 158, and no total
score is ever assigned to the result. -/
theorem c1_unresolved_section_aborts_scoring :
    normalizeResult cat42 1000 3600 rawMixed = .error .typeError := by
  rfl

/-- C4: refuted as stated (defect acknowledged by the spec, §9).  For
a section whose heuristic id (99) is not in the catalog, the code does
null the heuristic, but line 143 then accesses a field on the null
value; the resulting TypeError aborts the whole scoring loop, so a
later resolvable section (id 42) loses its contribution as well. -/
theorem c4_null_heuristic_is_dereferenced :
    processSection cat42 secUnknown = .error .typeError ∧
    scoreSections cat42 [secUnknown, secResolved] = .error .typeError := by
  exact ⟨rfl, rfl⟩

/-- C5: postcondition of the Identifier/Unwrapper stage (lines 56-71):
the canonical target path is named by the sha256 of the final payload
(the input itself for a non-wrapper, the decoded payload for a CaRT
wrapper), the file there holds exactly the final payload, the
returned FileInfo is computed from the final payload and never from
the wrapper, every unrelated path is untouched, and for a wrapper
whose decoded hash differs from the wrapper hash the interim
wrapper-hash path is left empty, so exactly one canonical file
remains. -/
theorem c5_canonical_file_postcondition (idf : Identify)
    (unpack : Content → Content) (fs : FS) (input : Content) :
    (unwrapStage idf unpack fs input).target
        = tempPath (fileinfo idf (finalPayload idf unpack input)).sha256
    ∧ (unwrapStage idf unpack fs input).fi
        = fileinfo idf (finalPayload idf unpack input)
    ∧ FS.read (unwrapStage idf unpack fs input).fs
        (unwrapStage idf unpack fs input).target
        = some (finalPayload idf unpack input)
    ∧ (∀ p, p ≠ (unwrapStage idf unpack fs input).target →
        p ≠ tempPath (fileinfo idf input).sha256 →
        FS.read (unwrapStage idf unpack fs input).fs p = fs.read p)
    ∧ ((fileinfo idf input).ftype = "archive/cart" →
        (fileinfo idf (unpack input)).sha256 ≠ (fileinfo idf input).sha256 →
        FS.read (unwrapStage idf unpack fs input).fs
          (tempPath (fileinfo idf input).sha256) = none) := by
  by_cases hc : (fileinfo idf input).ftype = "archive/cart"
  · simp only [unwrapStage, finalPayload, hc, if_true, eq_self_iff_true, ite_true]
    refine ⟨trivial, trivial, FS.read_write_self _ _ _, ?_, ?_⟩
    · intro p hpt hpo
      rw [FS.read_write_ne _ _ _ _ hpt, FS.read_remove_ne _ _ _ hpo,
        FS.read_write_ne _ _ _ _ hpo]
    · intro _ hne
      have hot : tempPath (fileinfo idf input).sha256
          ≠ tempPath (fileinfo idf (unpack input)).sha256 :=
        fun h => hne (tempPath_inj _ _ h).symm
      rw [FS.read_write_ne _ _ _ _ hot, FS.read_remove_self]
  · simp only [unwrapStage, finalPayload, hc, if_false, ite_false]
    refine ⟨trivial, trivial, FS.read_write_self _ _ _, ?_, ?_⟩
    · intro p hpt _
      exact FS.read_write_ne _ _ _ _ hpt
    · intro hcc
      exact hcc.elim

/-- C5 witness: the stage applied to the concrete CaRT input
`[77, 5, 6]` under `idf0`: the canonical file holds the decoded
payload and the interim wrapper-hash path is empty. -/
theorem c5_canonical_file_witness :
    FS.read (unwrapStage idf0 unpack0 fs0 (.raw [77, 5, 6])).fs
        (unwrapStage idf0 unpack0 fs0 (.raw [77, 5, 6])).target
      = some (finalPayload idf0 unpack0 (.raw [77, 5, 6]))
    ∧ FS.read (unwrapStage idf0 unpack0 fs0 (.raw [77, 5, 6])).fs
        (tempPath (fileinfo idf0 (.raw [77, 5, 6])).sha256) = none := by
  have h := c5_canonical_file_postcondition idf0 unpack0 fs0 (.raw [77, 5, 6])
  exact ⟨h.2.2.1, h.2.2.2.2 (by decide) (by decide)⟩

/-- C2: refuted as stated.  In a completed concrete run the `path`
fields are popped only on the in-memory parse; the artifact persisted
at `<workspace>/result.json` is the raw deposit moved unmodified
(line 165), and its extracted entry still carries a local filesystem
path. -/
theorem c2_persisted_artifact_keeps_path :
    (okFS (try_run idf0 unpack0 handleLeaky "SID" 1000 (.parsed manifest0)
        "/in/sample" "Svc" fs0)).bind
        (fun fs => fs.read "/in/sample_svc/result.json")
      = some (.json rawLeaky) ∧
    rawLeaky.extracted.any (fun e => e.path.isSome) = true := by
  exact ⟨by decide, by decide⟩

/-- C2 amended: the path-stripping is applied to the in-memory
normalized result only: whenever normalization completes, no entry of
its extracted or supplementary lists carries a local filesystem path;
the persisted artifact, by contrast, is the raw deposit and may retain
such paths. -/
theorem c2_paths_stripped_in_memory (heuristics : HeuristicCatalog)
    (now ttl : Nat) (raw : RawResult) (r : ScoredResult)
    (h : normalizeResult heuristics now ttl raw = .ok r) :
    (∀ e ∈ r.extracted, e.path = none) ∧
    (∀ e ∈ r.supplementary, e.path = none) := by
  unfold normalizeResult at h
  cases hs : scoreSections heuristics raw.sections with
  | error e =>
    rw [hs] at h
    exact absurd h (by simp)
  | ok v =>
    obtain ⟨secs, total⟩ := v
    rw [hs] at h
    injection h with h2
    subst h2
    constructor <;>
      · intro e he
        simp only [List.mem_map] at he
        obtain ⟨a, _, rfl⟩ := he
        rfl

/-- C2 witness: the amended theorem at the concrete normalization of
`rawLeaky`, whose in-memory form carries no paths. -/
theorem c2_paths_stripped_witness :
    (∀ e ∈ scored0.extracted, e.path = none) ∧
    (∀ e ∈ scored0.supplementary, e.path = none) :=
  c2_paths_stripped_in_memory cat42 1000 3600 rawLeaky scored0 (by rfl)

/-- C3: all normalization and scoring is applied to the in-memory
parse only: whenever the relocation phase leaves a result artifact
with content `c` at the expected location, the run completes, the
normalized result is returned only in memory, and the file persisted
at `<workspace>/result.json` is exactly `c`. -/
theorem c3_normalization_in_memory_only (heuristics : HeuristicCatalog)
    (now : Nat) (workingDir sid sha256 targetFile : String) (ttl : Nat)
    (fs : FS) (c : Content)
    (h : FS.read (FS.removeUnder (FS.relocateUnder fs stagingDir
          (workingDir ++ "/working_directory")) stagingDir)
        (resultJsonPath sid sha256) = some c) :
    ∃ fs1, postHandle heuristics now workingDir sid sha256 targetFile ttl fs
        = .ok (fs1, (parseResult c).bind
            (fun raw => (normalizeResult heuristics now ttl raw).toOption)) ∧
      fs1.read (workingDir ++ "/result.json") = some c := by
  have hpost : postHandle heuristics now workingDir sid sha256 targetFile ttl fs
      = .ok (FS.write
          (FS.remove
            (FS.remove
              (FS.removeUnder (FS.relocateUnder fs stagingDir
                (workingDir ++ "/working_directory")) stagingDir)
              targetFile)
            (resultJsonPath sid sha256))
          (workingDir ++ "/result.json") c,
        (parseResult c).bind
          (fun raw => (normalizeResult heuristics now ttl raw).toOption)) := by
    simp only [postHandle, h]
  exact ⟨_, hpost, FS.read_write_self _ _ c⟩

/-- C3 witness: a concrete post-handle state whose deposited artifact
is `rawLeaky`; the run completes and the persisted workspace result
equals the deposit. -/
theorem c3_in_memory_witness :
    ∃ fs1, postHandle cat42 1000 "/ws" "SID" "shaX" "/tmp/shaX" 3600
        [("/tmp/SID_shaX_result.json", .json rawLeaky)]
        = .ok (fs1, (parseResult (.json rawLeaky)).bind
            (fun raw => (normalizeResult cat42 1000 3600 raw).toOption)) ∧
      fs1.read ("/ws" ++ "/result.json") = some (.json rawLeaky) :=
  c3_normalization_in_memory_only cat42 1000 "/ws" "SID" "shaX" "/tmp/shaX"
    3600 [("/tmp/SID_shaX_result.json", .json rawLeaky)] (.json rawLeaky)
    (by decide)

/-- C6 counterexample: the claim places the ExecutionFailure abort
after the deletion of the canonical temp input.  In a concrete run
where the service deposits nothing, the harness raises the line-118
exception while the canonical temp input `/tmp/sha3n6` is still
present in the abort-state filesystem. -/
theorem c6_abort_retains_temp_input :
    (execFailFS (try_run idf0 unpack0 handleSilent "SID" 1000
        (.parsed manifest0) "/in/sample" "Svc" fs0)).bind
        (fun fsE => fsE.read "/tmp/sha3n6")
      = some (.raw [1, 2, 3]) := by
  decide

/-- C6 amended: if no result artifact exists at the expected location
after the staging relocation, the harness aborts with the line-118
ExecutionFailure, and the abort-state filesystem is exactly the
relocated state: staged artifacts have been moved into the workspace
artifact subdirectory (retained), while the canonical temp input has
not been deleted and no result file has been placed in the
workspace. -/
theorem c6_failure_before_cleanup (heuristics : HeuristicCatalog)
    (now : Nat) (workingDir sid sha256 targetFile : String) (ttl : Nat)
    (fs : FS)
    (h : FS.read (FS.removeUnder (FS.relocateUnder fs stagingDir
          (workingDir ++ "/working_directory")) stagingDir)
        (resultJsonPath sid sha256) = none) :
    postHandle heuristics now workingDir sid sha256 targetFile ttl fs
      = .error (.executionFailure
          "A service error occured and no result json was found.",
          FS.removeUnder (FS.relocateUnder fs stagingDir
            (workingDir ++ "/working_directory")) stagingDir) := by
  simp only [postHandle, h]

/-- C6 witness: the amended theorem at a concrete state with a staged
artifact and no result artifact: the harness aborts in the relocated
state, with the canonical temp input not deleted. -/
theorem c6_failure_before_cleanup_witness :
    postHandle cat42 1000 "/ws" "SID" "shaX" "/tmp/T" 3600
        [("/tmp/T", .raw [7]), ("/tmp/working_directory/a.bin", .raw [8])]
      = .error (.executionFailure
          "A service error occured and no result json was found.",
          FS.removeUnder (FS.relocateUnder
            [("/tmp/T", .raw [7]), ("/tmp/working_directory/a.bin", .raw [8])]
            stagingDir ("/ws" ++ "/working_directory")) stagingDir) :=
  c6_failure_before_cleanup cat42 1000 "/ws" "SID" "shaX" "/tmp/T" 3600
    [("/tmp/T", .raw [7]), ("/tmp/working_directory/a.bin", .raw [8])]
    (by decide)

/-- C7: refuted as stated (unit ambiguity acknowledged by the spec,
§9).  At clock 1000 with the harness's fixed task ttl of 3600, line
149 computes `expiry_ts` as created + ttl * 24 * 60 * 60 seconds
(treating the seconds-valued ttl as a count of days), not
created + ttl. -/
theorem c7_expiry_multiplies_ttl_as_days :
    (normalizeResult cat42 1000 3600 rawLeaky).map
        (fun r => (r.created, r.expiry_ts))
      = .ok (1000, 311041000) ∧
    1000 + 3600 < 311041000 := by
  exact ⟨rfl, by decide⟩

/-- C8: whenever the normalization completes, the stamped
`archive_ts` equals the stamped `created` plus exactly one day
(lines 147-148). -/
theorem c8_archive_equals_created_plus_one_day
    (heuristics : HeuristicCatalog) (now ttl : Nat) (raw : RawResult)
    (r : ScoredResult) (h : normalizeResult heuristics now ttl raw = .ok r) :
    r.archive_ts = r.created + 24 * 60 * 60 := by
  unfold normalizeResult at h
  cases hs : scoreSections heuristics raw.sections with
  | error e =>
    rw [hs] at h
    exact absurd h (by simp)
  | ok v =>
    obtain ⟨secs, total⟩ := v
    rw [hs] at h
    injection h with h2
    subst h2
    simp [now_as_iso]

/-- C8 witness: the general theorem applied to the concrete normalized
result of `rawLeaky` under `cat42` at clock 1000. -/
theorem c8_archive_witness : scored0.archive_ts = scored0.created + 24 * 60 * 60 :=
  c8_archive_equals_created_plus_one_day cat42 1000 3600 rawLeaky scored0 (by rfl)

/-- C9: with a valid manifest and a missing input file, `try_run`
logs and returns cleanly: no error is raised, no scored result is
produced, and the filesystem is returned exactly as it was (zero
writes, line 42-44). -/
theorem c9_missing_input_clean_noop (idf : Identify)
    (unpack : Content → Content) (handle : ServiceTask → FS → FS)
    (sid : String) (now : Nat) (md : ManifestData)
    (filePath serviceName : String) (fs : FS)
    (h : fs.read filePath = none) :
    try_run idf unpack handle sid now (.parsed md) filePath serviceName fs
      = .ok (fs, none) := by
  simp only [try_run, load_service_manifest, h]

/-- C9 witness: the concrete run against a path absent from `fs0`
returns `fs0` untouched. -/
theorem c9_missing_input_witness :
    try_run idf0 unpack0 handleLeaky "SID" 1000 (.parsed manifest0)
        "/in/missing" "Svc" fs0 = .ok (fs0, none) :=
  c9_missing_input_clean_noop idf0 unpack0 handleLeaky "SID" 1000 manifest0
    "/in/missing" "Svc" fs0 (by rfl)

/-- C10 counterexample: a manifest that parses but fails `Service`
model validation does not abort the harness: the validation failure is
caught and only logged (lines 186-189), `load_service_manifest`
returns the data, and a full run with this manifest executes the
service and completes with a normalized score. -/
theorem c10_invalid_manifest_still_executes :
    manifestInvalid.serviceModelValid = false ∧
    load_service_manifest (.parsed manifestInvalid) = .ok manifestInvalid ∧
    okScore (try_run idf0 unpack0 handleLeaky "SID" 1000
        (.parsed manifestInvalid) "/in/sample" "Svc" fs0)
      = some 500 := by
  exact ⟨rfl, rfl, by decide⟩

/-- C10 amended: a missing manifest file, or one that is not parseable
as YAML, raises a fatal configuration error before any execution: the
run aborts with the filesystem untouched; only a manifest that parses
but fails Service-model validation is logged and tolerated. -/
theorem c10_missing_manifest_fatal (idf : Identify)
    (unpack : Content → Content) (handle : ServiceTask → FS → FS)
    (sid : String) (now : Nat) (filePath serviceName : String) (fs : FS) :
    try_run idf unpack handle sid now .missing filePath serviceName fs
      = .error (.configurationError
          "Service manifest YAML file not found in root folder of service.", fs) ∧
    try_run idf unpack handle sid now .unparsable filePath serviceName fs
      = .error (.configurationError "invalid YAML in service manifest", fs) := by
  exact ⟨rfl, rfl⟩

end RunServiceOnce
